import Mathlib

/-!
Verification of the mongoose-backed data-access layer: the connection
manager (`src/tool/mongodb.ts`) and the tenant-scoped model cache with the
generic CRUD facade (`MongoBase`).  JavaScript values, strings and the
driver boundary are shallowly embedded; the facade's methods are
translated function by function from the source.
-/

namespace WsDb

/-! ## JavaScript value and string primitives -/

/-- A JavaScript value as it may appear in a record's `_id` slot:
a string, a number, or `undefined` (the field is absent). -/
inductive JsVal where
  | str (s : String)
  | num (n : Int)
  | undef
deriving DecidableEq, Repr

/-- `typeof v === 'string'`. -/
def JsVal.isStr : JsVal → Bool
  | .str _ => true
  | _ => false

/-- The string payload of a `JsVal`, defaulting to `""` (only used under an
`isStr` guard, mirroring the source's `typeof` guard). -/
def JsVal.strOf : JsVal → String
  | .str s => s
  | _ => ""

/-- Embedding of JavaScript `String.prototype.trim`: drop whitespace from
both ends. -/
def jsTrim (s : String) : String :=
  ⟨(((s.data.dropWhile Char.isWhitespace).reverse.dropWhile Char.isWhitespace).reverse)⟩

/-- A record handled by the facade: an `_id` slot plus the remaining
fields, modelled as an association list from field name to integer value. -/
structure Rec where
  oid : JsVal
  fields : List (String × Int)
deriving DecidableEq, Repr

/-! ## ObjectId generation

`new Types.ObjectId().toString()` is the bson library's generator: each call
yields a fresh 24-hex-character string.  We model the generator as a counter
rendered in base 16, padded to 24 digits; calls are numbered by a `Nat`
counter threaded through the embedding. -/

/-- The lowercase hex digit for a value below 16: `0`-`9` then `a`-`f`. -/
def hexDigit (v : Nat) : Char :=
  if v < 10 then Char.ofNat (48 + v) else Char.ofNat (87 + v)

def genId (n : Nat) : String :=
  ⟨(List.range 24).map fun i => hexDigit (n / 16 ^ (23 - i) % 16)⟩

/-! ## `MongoBase.id` (part_000 lines 58-80)

The guard on line 65 pushes a record exactly when
`typeof data[i]._id !== 'string' || data[i]._id.trim() === ''`. -/

/-- Line 65's condition: the `_id` slot is not a string, or is a
blank string. -/
def needsFreshId (v : JsVal) : Bool :=
  !v.isStr || (v.isStr && (jsTrim v.strOf).isEmpty)

/-- Either a single record or an array, the two shapes `create` accepts. -/
inductive OneOrMany (α : Type) where
  | one (a : α)
  | many (l : List α)

/-- The array branch of `MongoBase.id`: walk the input in order, pushing
`{...data[i], _id: new Types.ObjectId().toString()}` exactly when line 65's
guard holds, and dropping the element otherwise.  Returns the pushed list
together with the advanced generator counter. -/
def idArray (g : Nat) : List Rec → List Rec × Nat
  | [] => ([], g)
  | r :: rest =>
    if needsFreshId r.oid then
      let (rs, g') := idArray (g + 1) rest
      ({ r with oid := .str (genId g) } :: rs, g')
    else
      idArray g rest

/-- `MongoBase.id` (lines 58-80): the array branch filters by line 65's
guard; the non-array branch unconditionally pushes
`{...data, _id: new Types.ObjectId().toString()}`. -/
def MongoBase.id (g : Nat) : OneOrMany Rec → List Rec × Nat
  | .many l => idArray g l
  | .one r => ([{ r with oid := .str (genId g) }], g + 1)

/-! ## `MongoBase.create` (part_000 lines 82-90) and the insert boundary -/

/-- The persisted state of one collection at the driver boundary:
the stored documents, plus the driver's cheap metadata-based estimate of
the total count (read by `estimatedDocumentCount`, possibly stale). -/
structure Collection where
  docs : List Rec
  estimatedCount : Nat
deriving DecidableEq, Repr

/-- Driver `insertMany`: append the given documents and return them. -/
def insertMany (c : Collection) (rs : List Rec) : Collection × List Rec :=
  ({ c with docs := c.docs ++ rs }, rs)

/-- Driver `new Model(doc).save()`: append one document and return it. -/
def saveOne (c : Collection) (r : Rec) : Collection × Rec :=
  ({ c with docs := c.docs ++ [r] }, r)

/-- `MongoBase.create` (lines 82-90): the array form bulk-inserts
`this.id(data)`; the single form saves `this.id(data)[0]`.  Returns the
new collection state, the persisted records, and the advanced generator
counter. -/
def MongoBase.create (g : Nat) (c : Collection) :
    OneOrMany Rec → Collection × List Rec × Nat
  | .many l =>
    let (rs, g') := MongoBase.id g (.many l)
    let (c', out) := insertMany c rs
    (c', out, g')
  | .one r =>
    let (rs, g') := MongoBase.id g (.one r)
    let (c', saved) := saveOne c (rs.headD { oid := .undef, fields := [] })
    (c', [saved], g')

/-- The records of `l` that line 65's guard keeps, each augmented with the
next generated identifier, in order: the `k`-th kept record receives the
generator's `(g + k)`-th value. -/
def attachIds (g : Nat) : List Rec → List Rec
  | [] => []
  | r :: rest => { r with oid := .str (genId g) } :: attachIds (g + 1) rest

/-! ## The model cache (`MongoBase.model`, part_000 lines 32-56)

`global.tenantDBModel` is a plain keyed object, modelled as an association
list; schema compilations are numbered by a counter so that distinct
compilations are distinguishable, and each call's observable work is
recorded as a list of effects. -/

/-- Association-list lookup on string keys. -/
def assocGet {α : Type} (k : String) : List (String × α) → Option α
  | [] => none
  | (k', v) :: rest => if k' = k then some v else assocGet k rest

/-- Association-list removal of a key (JavaScript `delete obj[k]`). -/
def assocErase {α : Type} (k : String) (m : List (String × α)) :
    List (String × α) :=
  m.filter fun p => p.1 != k

/-- A compiled model handle: the collection name bound to one particular
schema compilation (identified by its compilation number). -/
structure Handle where
  name : String
  compilation : Nat
deriving DecidableEq, Repr

/-- One entry of `global.tenantDBModel`: a handle plus its timer reference. -/
structure Entry where
  data : Handle
  timer : Nat
deriving DecidableEq, Repr

/-- Observable work performed by one `model` getter call. -/
inductive Effect where
  | compileSchema (v : Nat)
  | applyIndex (field : String)
  | driverModelCall (name : String)
  | setTimer (id : Nat) (delayMs : Nat)
deriving DecidableEq, Repr

/-- The process-wide mutable state the `model` getter touches:
`global.tenantDBModel`, the driver's model registry (`connection.models`),
and fresh-name counters for compilations and timers. -/
structure GState where
  tenantDBModel : List (String × Entry)
  driverModels : List (String × Handle)
  nextCompile : Nat
  nextTimer : Nat
deriving DecidableEq, Repr

/-- The constructor arguments of `MongoBase` that the `model` getter reads:
collection name, index-specification field names, optional tenant id. -/
structure Descriptor where
  collectionName : String
  indexKeys : List String
  tenantId : Option String
deriving DecidableEq, Repr

/-- Modelled from the spec: the database driver's `model(name, schema,
collectionName)` registry, an external collaborator absent from src.  Per
the interface boundary and cache sections of the spec, the handle for a
name lives "in a permanent, unkeyed slot — one handle per collection name
for the life of the process": a call for a known name returns the stored
handle and discards the schema passed in; a call for a new name registers
and returns the freshly compiled handle. -/
def driverModel (st : GState) (name : String) (compiled : Handle) :
    GState × Handle :=
  match assocGet name st.driverModels with
  | some h => (st, h)
  | none => ({ st with driverModels := (name, compiled) :: st.driverModels }, compiled)

/-- The `model` getter (lines 32-56).  A hit in `global.tenantDBModel`
returns the stored handle at once (lines 33-35).  Otherwise a schema is
compiled (line 36), every index specification is applied to it (lines
38-42), the driver's `model` is called (line 43); without a tenant id the
handle is returned directly (lines 45-47), with one it is stored in
`global.tenantDBModel` together with a fresh 30-minute timer (lines 48-55).
Returns the new state, the handle, and the call's effects. -/
def MongoBase.model (d : Descriptor) (st : GState) :
    GState × Handle × List Effect :=
  match assocGet d.collectionName st.tenantDBModel with
  | some e => (st, e.data, [])
  | none =>
    let v := st.nextCompile
    let st1 : GState := { st with nextCompile := v + 1 }
    let compiled : Handle := { name := d.collectionName, compilation := v }
    let effs := Effect.compileSchema v :: d.indexKeys.map Effect.applyIndex
        ++ [Effect.driverModelCall d.collectionName]
    let (st2, h) := driverModel st1 d.collectionName compiled
    match d.tenantId with
    | none => (st2, h, effs)
    | some _ =>
      let tid := st2.nextTimer
      let st3 : GState :=
        { st2 with
          nextTimer := tid + 1
          tenantDBModel := (d.collectionName, { data := h, timer := tid }) :: st2.tenantDBModel }
      (st3, h, effs ++ [Effect.setTimer tid (30 * 60 * 1000)])

/-- The 30-minute timer's callback (lines 50-53): clear the timer and
`delete global.tenantDBModel[name]`. -/
def timerFire (name : String) (st : GState) : GState :=
  { st with tenantDBModel := assocErase name st.tenantDBModel }

/-! ## The connection manager (`src/tool/mongodb.ts` lines 4-17) -/

def RECONNET_TIME : Nat := 5000

/-- Observable actions of one `mongoconnect` attempt.  `throwErr` is the
action of surfacing a failure to the caller as a thrown rejection; the
source's callback-style `mongoose.connect` never performs it. -/
inductive ConnEffect where
  | logConfigError
  | logConnError
  | connectAttempt (addr : String)
  | scheduleRetry (delayMs : Nat)
  | throwErr
deriving DecidableEq, Repr

/-- JavaScript truth test `!mongodbAddress` on `getENV('MONGO_URL')`:
`undefined` and the empty string are falsy; every other string — including
a whitespace-only one — is truthy. -/
def jsFalsyStr : Option String → Bool
  | none => true
  | some s => s.isEmpty

/-- One `mongoconnect()` call (lines 5-17), given the configured address
and this attempt's outcome (`true` = the driver connects).  A falsy address
returns after `systemLog(...).error(...)` (lines 8-10).  Otherwise
`mongoose.connect` runs with a callback: on error it logs and runs
`setTimeout(mongoconnect, RECONNET_TIME)` (lines 11-16). -/
def mongoconnectOnce (env : Option String) (ok : Bool) : List ConnEffect :=
  if jsFalsyStr env then
    [ConnEffect.logConfigError]
  else
    ConnEffect.connectAttempt (env.getD "") ::
      (if ok then [] else [ConnEffect.logConnError, ConnEffect.scheduleRetry RECONNET_TIME])

/-- The firing time of attempt number `k` of the retry loop, given the
configured address and the outcome of each attempt: attempt 0 fires at
time 0 unless the address is falsy (line 8 aborts without scheduling
anything); attempt `k + 1` fires `RECONNET_TIME` after attempt `k` if that
attempt failed (line 14), and never fires if it succeeded.  `none` means
the attempt never happens. -/
def attemptTime (env : Option String) (outcomes : Nat → Bool) : Nat → Option Nat
  | 0 => if jsFalsyStr env then none else some 0
  | k + 1 =>
    match attemptTime env outcomes k with
    | none => none
    | some t => if outcomes k then none else some (t + RECONNET_TIME)

/-! ## Updates and upserts (part_000 lines 100-144) -/

/-- The slice of mongoose `QueryOptions` the upsert facade manipulates:
the `upsert` flag (absent when the caller did not set it) plus an opaque
remainder standing for every other option field. -/
structure QueryOpts where
  upsert : Option Bool
  rest : Nat
deriving DecidableEq, Repr

/-- The spread `{ ...options, upsert: true }` of lines 120 and 143:
spreading `undefined` contributes nothing, and the literal `upsert: true`
written after the spread overwrites any caller-supplied `upsert`. -/
def spreadUpsertTrue : Option QueryOpts → QueryOpts
  | none => { upsert := some true, rest := 0 }
  | some o => { o with upsert := some true }

/-- The driver's effective reading of the `upsert` option: absent means
`false`. -/
def effectiveUpsert (o : Option QueryOpts) : Bool :=
  match o with
  | none => false
  | some o => o.upsert.getD false

/-- The result shape of the update family. -/
structure UpdateResult where
  acknowledged : Bool
  modifiedCount : Nat
  upsertedCount : Nat
  matchedCount : Nat
deriving DecidableEq, Repr

/-- Driver `updateOne` at the interface boundary: match the filter; with no
match and the `upsert` option on, insert one document (`upsertedCount` 1);
otherwise modify the first match. -/
def driverUpdateOne (c : Collection) (q : Rec → Bool) (o : Option QueryOpts) :
    UpdateResult :=
  let matched := (c.docs.filter q).length
  if matched = 0 then
    if effectiveUpsert o then
      { acknowledged := true, modifiedCount := 0, upsertedCount := 1, matchedCount := 0 }
    else
      { acknowledged := true, modifiedCount := 0, upsertedCount := 0, matchedCount := 0 }
  else
    { acknowledged := true, modifiedCount := 1, upsertedCount := 0, matchedCount := 1 }

/-- Driver `updateMany`: as `driverUpdateOne` but modifying every match. -/
def driverUpdateMany (c : Collection) (q : Rec → Bool) (o : Option QueryOpts) :
    UpdateResult :=
  let matched := (c.docs.filter q).length
  if matched = 0 then
    if effectiveUpsert o then
      { acknowledged := true, modifiedCount := 0, upsertedCount := 1, matchedCount := 0 }
    else
      { acknowledged := true, modifiedCount := 0, upsertedCount := 0, matchedCount := 0 }
  else
    { acknowledged := true, modifiedCount := matched, upsertedCount := 0, matchedCount := matched }

/-- `MongoBase.updateOne` (lines 100-110): forwards query, update and
options to the driver unchanged. -/
def MongoBase.updateOne (c : Collection) (q : Rec → Bool) (o : Option QueryOpts) :
    UpdateResult :=
  driverUpdateOne c q o

/-- `MongoBase.upsertOne` (lines 113-121):
`this.updateOne(query, update, { ...options, upsert: true })`. -/
def MongoBase.upsertOne (c : Collection) (q : Rec → Bool) (o : Option QueryOpts) :
    UpdateResult :=
  MongoBase.updateOne c q (some (spreadUpsertTrue o))

/-- `MongoBase.updateMany` (lines 123-133). -/
def MongoBase.updateMany (c : Collection) (q : Rec → Bool) (o : Option QueryOpts) :
    UpdateResult :=
  driverUpdateMany c q o

/-- `MongoBase.upsertMany` (lines 136-144):
`this.updateMany(query, update, { ...options, upsert: true })`. -/
def MongoBase.upsertMany (c : Collection) (q : Rec → Bool) (o : Option QueryOpts) :
    UpdateResult :=
  MongoBase.updateMany c q (some (spreadUpsertTrue o))

/-! ## `MongoBase.count` (part_000 lines 162-168) -/

/-- Driver `countDocuments`: the exact number of documents matching the
filter. -/
def countDocuments (c : Collection) (q : Rec → Bool) : Nat :=
  (c.docs.filter q).length

/-- Driver `estimatedDocumentCount`: the fast metadata-based estimate of
the total, which may disagree with the stored documents. -/
def estimatedDocumentCount (c : Collection) : Nat :=
  c.estimatedCount

/-- `MongoBase.count` (lines 162-168): `if (query)` takes the exact
`countDocuments` path, else the `estimatedDocumentCount` path. -/
def MongoBase.count (c : Collection) : Option (Rec → Bool) → Nat
  | some q => countDocuments c q
  | none => estimatedDocumentCount c

/-! ## `MongoBase.paging` (part_000 lines 158-160)

The source builds a mongoose query chain
`find(query).sort(sort).skip(skip || 0).limit(limit).lean()`; the chain is
embedded as a cursor record whose stages are filled in by the chained
calls and executed by `exec` (the terminal `.lean()`), with the driver's
documented sort-skip-limit semantics at the boundary. -/

/-- A sort mapping: field name to one of the accepted direction tokens
`asc`, `desc`, `ascending`, `descending`, `1`, `-1`. -/
abbrev SortSpec := List (String × String)

/-- Direction tokens meaning ascending; the rest mean descending. -/
def dirAscending (d : String) : Bool :=
  d = "asc" || d = "ascending" || d = "1"

/-- A record's value at a field, 0 when absent. -/
def fieldVal (r : Rec) (k : String) : Int :=
  (assocGet k r.fields).getD 0

/-- The comparator induced by a sort mapping: compare field by field in
mapping order, each field by its declared direction. -/
def sortLe (sp : SortSpec) (a b : Rec) : Bool :=
  match sp with
  | [] => true
  | (k, d) :: rest =>
    if fieldVal a k = fieldVal b k then sortLe rest a b
    else if dirAscending d then decide (fieldVal a k < fieldVal b k)
    else decide (fieldVal b k < fieldVal a k)

/-- Insertion into a list sorted by `le`. -/
def insertLe (le : Rec → Rec → Bool) (x : Rec) : List Rec → List Rec
  | [] => [x]
  | y :: ys => if le x y then x :: y :: ys else y :: insertLe le x ys

/-- Driver sort: order the records by the comparator of the sort mapping. -/
def sortRecs (sp : SortSpec) (l : List Rec) : List Rec :=
  l.foldr (insertLe (sortLe sp)) []

/-- A mongoose query chain in construction: source documents, filter, and
the optional sort / skip / limit stages. -/
structure Cursor where
  source : List Rec
  filter : Rec → Bool
  sortSpec : Option SortSpec
  skipN : Nat
  limitN : Option Nat

/-- `model.find(query, null, options)`: a fresh chain over the collection. -/
def Collection.find (c : Collection) (q : Rec → Bool) : Cursor :=
  { source := c.docs, filter := q, sortSpec := none, skipN := 0, limitN := none }

/-- `.sort(sort)` on the chain (a no-op stage when `sort` is absent). -/
def Cursor.sort (cur : Cursor) (sp : Option SortSpec) : Cursor :=
  { cur with sortSpec := sp }

/-- `.skip(n)` on the chain. -/
def Cursor.skip (cur : Cursor) (n : Nat) : Cursor :=
  { cur with skipN := n }

/-- `.limit(n)` on the chain. -/
def Cursor.limit (cur : Cursor) (n : Nat) : Cursor :=
  { cur with limitN := some n }

/-- The terminal `.lean()`: execute the chain with the driver's stage
order — filter, then sort, then skip, then limit. -/
def Cursor.exec (cur : Cursor) : List Rec :=
  let l := cur.source.filter cur.filter
  let l := match cur.sortSpec with
    | none => l
    | some sp => sortRecs sp l
  let l := l.drop cur.skipN
  match cur.limitN with
  | none => l
  | some n => l.take n

/-- The `skip` argument as a JavaScript number: `none` models `NaN`. -/
abbrev JsNum := Option Nat

/-- JavaScript `skip || 0` (line 159): `NaN` and `0` are falsy and give 0. -/
def jsOrZero : JsNum → Nat
  | none => 0
  | some n => n

/-- `skip` is a falsy JavaScript number (`0` or `NaN`). -/
def jsFalsyNum : JsNum → Bool
  | none => true
  | some n => n == 0

/-- `MongoBase.paging` (lines 158-160):
`this.model.find(query, null, options).sort(sort).skip(skip || 0).limit(limit).lean()`. -/
def MongoBase.paging (c : Collection) (q : Rec → Bool) (limit : Nat)
    (skip : JsNum) (sort : Option SortSpec) : List Rec :=
  ((((c.find q).sort sort).skip (jsOrZero skip)).limit limit).exec

/-- The sort stage applied on its own, for stating the pipeline shape. -/
def applySort (sort : Option SortSpec) (l : List Rec) : List Rec :=
  match sort with
  | none => l
  | some sp => sortRecs sp l

/-! ## Helper lemmas -/

/-- The array branch of `id` keeps exactly the records satisfying line 65's
guard, attaches consecutive generator values to them, and advances the
counter by the number of kept records. -/
theorem idArray_characterization (l : List Rec) : ∀ g : Nat,
    idArray g l
      = (attachIds g (l.filter fun r => needsFreshId r.oid),
         g + (l.filter fun r => needsFreshId r.oid).length) := by
  induction l with
  | nil => intro g; rfl
  | cons r rest ih =>
    intro g
    by_cases h : needsFreshId r.oid = true
    · simp [idArray, List.filter_cons, h, attachIds, ih (g + 1)]
      omega
    · simp [idArray, List.filter_cons, h, attachIds, ih g]

/-- An association-list lookup misses exactly when the key is absent. -/
theorem assocGet_eq_none {α : Type} (k : String) (m : List (String × α)) :
    assocGet k m = none ↔ k ∉ m.map Prod.fst := by
  induction m with
  | nil => simp [assocGet]
  | cons p rest ih =>
    by_cases h : p.1 = k
    · simp [assocGet, h]
    · simp [assocGet, h, ih, Ne.symm h]

/-- Erasing a key makes its lookup miss. -/
theorem assocGet_assocErase {α : Type} (k : String) (m : List (String × α)) :
    assocGet k (assocErase k m) = none := by
  rw [assocGet_eq_none]
  intro hmem
  simp only [assocErase, List.filter_map] at hmem
  rcases List.mem_map.mp hmem with ⟨p, hp, hpk⟩
  rcases List.mem_filter.mp hp with ⟨_, hne⟩
  exact absurd hpk (by simpa using hne)

/-! ## Claims -/

/-- C10: for every array passed to `create`, the sequence handed to the
bulk-insert path is exactly the input records whose `_id` was not a
non-blank string — in order, each augmented with the next freshly
generated identifier — and exactly that sequence is appended to the
collection, so input records already carrying a valid non-blank string
identifier are omitted from the insert and not persisted by the call. -/
theorem create_many_inserts_exactly_fresh (g : Nat) (c : Collection) (l : List Rec) :
    (MongoBase.create g c (.many l)).2.1
        = attachIds g (l.filter fun r => needsFreshId r.oid)
    ∧ (MongoBase.create g c (.many l)).1.docs
        = c.docs ++ attachIds g (l.filter fun r => needsFreshId r.oid) := by
  simp [MongoBase.create, MongoBase.id, insertMany, idArray_characterization]

/-- C1 (code bug witness): on a record whose `_id` is already the valid
non-blank string `"507f191e810c19729de860ea"`, the single-record `create`
persists a record whose `_id` is a freshly generated value different from
the given one, and the array-form `create` persists nothing at all — the
given identifier is not preserved in any persisted record. -/
theorem create_does_not_preserve_valid_id :
    (MongoBase.create 0 { docs := [], estimatedCount := 0 }
        (.one { oid := .str "507f191e810c19729de860ea", fields := [] })).2.1
      = [{ oid := .str (genId 0), fields := [] }]
    ∧ JsVal.str (genId 0) ≠ JsVal.str "507f191e810c19729de860ea"
    ∧ (MongoBase.create 0 { docs := [], estimatedCount := 0 }
        (.many [{ oid := .str "507f191e810c19729de860ea", fields := [] }])).1.docs
      = [] := by
  refine ⟨by decide, by decide, by decide⟩

/-- A sample non-tenant descriptor. -/
def usersDescriptor : Descriptor :=
  { collectionName := "users", indexKeys := ["name"], tenantId := none }

/-- The process state at startup: empty caches, fresh counters. -/
def emptyGState : GState :=
  { tenantDBModel := [], driverModels := [], nextCompile := 0, nextTimer := 0 }

/-- C2 (counterexample): starting from the empty process state, the second
`model` call for the non-tenant collection `users` compiles the schema
again (its effect trace contains the compilation numbered 1), refuting
"the second call does not re-compile the schema". -/
theorem model_second_call_recompiles_cex :
    Effect.compileSchema 1 ∈
      (MongoBase.model usersDescriptor
        (MongoBase.model usersDescriptor emptyGState).1).2.2 := by
  decide

/-- C2 (amended): for a descriptor without a tenant id whose name has no
tenant-cache entry, two `model` calls return the identical handle — the
driver registry's permanent slot returns the stored instance — but each of
the two calls compiles a schema (the second call's compilation, numbered
`st.nextCompile + 1`, is built and then discarded by the driver). -/
theorem model_no_tenant_same_handle_but_recompiles
    (d : Descriptor) (st : GState)
    (ht : d.tenantId = none)
    (hc : assocGet d.collectionName st.tenantDBModel = none) :
    (MongoBase.model d (MongoBase.model d st).1).2.1 = (MongoBase.model d st).2.1
    ∧ Effect.compileSchema st.nextCompile ∈ (MongoBase.model d st).2.2
    ∧ Effect.compileSchema (st.nextCompile + 1)
        ∈ (MongoBase.model d (MongoBase.model d st).1).2.2 := by
  cases hd : assocGet d.collectionName st.driverModels with
  | none => simp [MongoBase.model, driverModel, hc, ht, hd, assocGet]
  | some h => simp [MongoBase.model, driverModel, hc, ht, hd]

/-- C2 (witness): the amended theorem applied to the `users` descriptor and
the empty process state. -/
theorem model_no_tenant_witness :
    (MongoBase.model usersDescriptor
        (MongoBase.model usersDescriptor emptyGState).1).2.1
      = (MongoBase.model usersDescriptor emptyGState).2.1
    ∧ Effect.compileSchema emptyGState.nextCompile
        ∈ (MongoBase.model usersDescriptor emptyGState).2.2
    ∧ Effect.compileSchema (emptyGState.nextCompile + 1)
        ∈ (MongoBase.model usersDescriptor
            (MongoBase.model usersDescriptor emptyGState).1).2.2 :=
  model_no_tenant_same_handle_but_recompiles usersDescriptor emptyGState rfl rfl

/-- C3: a `model` call whose collection name has a live tenant-cache entry
returns the stored handle and changes nothing at all — the state (hence
the entry and its timer) is untouched and the effect trace is empty (no
schema compilation, no index application, no timer set or reset). -/
theorem model_cache_hit_frame (d : Descriptor) (st : GState) (e : Entry)
    (h : assocGet d.collectionName st.tenantDBModel = some e) :
    MongoBase.model d st = (st, e.data, []) := by
  simp [MongoBase.model, h]

/-- A sample process state holding a live tenant-cache entry for
`t1_users`. -/
def t1GState : GState :=
  { tenantDBModel :=
      [("t1_users", { data := { name := "t1_users", compilation := 0 }, timer := 0 })]
    driverModels := [("t1_users", { name := "t1_users", compilation := 0 })]
    nextCompile := 1
    nextTimer := 1 }

/-- A sample tenant-scoped descriptor for `t1_users`. -/
def t1Descriptor : Descriptor :=
  { collectionName := "t1_users", indexKeys := ["name"], tenantId := some "t1" }

/-- C3 (witness): the cache-hit frame theorem applied to a state holding a
live entry for `t1_users`. -/
theorem model_cache_hit_frame_witness :
    MongoBase.model t1Descriptor t1GState
      = (t1GState, { name := "t1_users", compilation := 0 }, []) :=
  model_cache_hit_frame t1Descriptor t1GState
    { data := { name := "t1_users", compilation := 0 }, timer := 0 } rfl

/-- C8: the tenant cache keeps at most one live entry per collection name
(key-distinctness is preserved by `model` calls and by timer firings); when
the 30-minute timer fires its entry is deleted, and the next `model` call
for that name compiles a fresh schema and re-applies every index
specification. -/
theorem tenant_cache_ttl (d : Descriptor) (st : GState)
    (hnodup : (st.tenantDBModel.map Prod.fst).Nodup) :
    ((MongoBase.model d st).1.tenantDBModel.map Prod.fst).Nodup
    ∧ ((timerFire d.collectionName st).tenantDBModel.map Prod.fst).Nodup
    ∧ assocGet d.collectionName (timerFire d.collectionName st).tenantDBModel = none
    ∧ Effect.compileSchema (timerFire d.collectionName st).nextCompile
        ∈ (MongoBase.model d (timerFire d.collectionName st)).2.2
    ∧ ∀ k ∈ d.indexKeys,
        Effect.applyIndex k ∈ (MongoBase.model d (timerFire d.collectionName st)).2.2 := by
  have herase : assocGet d.collectionName (timerFire d.collectionName st).tenantDBModel = none :=
    assocGet_assocErase d.collectionName st.tenantDBModel
  have hsub : ((timerFire d.collectionName st).tenantDBModel.map Prod.fst).Nodup :=
    hnodup.sublist ((List.filter_sublist _).map Prod.fst)
  refine ⟨?_, hsub, herase, ?_, ?_⟩
  · cases hget : assocGet d.collectionName st.tenantDBModel with
    | some e => simp [MongoBase.model, hget, hnodup]
    | none =>
      cases hd : assocGet d.collectionName st.driverModels with
      | none =>
        cases htid : d.tenantId with
        | none => simp [MongoBase.model, driverModel, hget, hd, htid, hnodup]
        | some tid =>
          simp [MongoBase.model, driverModel, hget, hd, htid, hnodup]
          intro x hx
          exact (assocGet_eq_none _ _).mp hget (List.mem_map_of_mem Prod.fst hx)
      | some h =>
        cases htid : d.tenantId with
        | none => simp [MongoBase.model, driverModel, hget, hd, htid, hnodup]
        | some tid =>
          simp [MongoBase.model, driverModel, hget, hd, htid, hnodup]
          intro x hx
          exact (assocGet_eq_none _ _).mp hget (List.mem_map_of_mem Prod.fst hx)
  · cases hd : assocGet d.collectionName (timerFire d.collectionName st).driverModels with
    | none =>
      cases htid : d.tenantId <;>
        simp [MongoBase.model, driverModel, herase, hd, htid]
    | some h =>
      cases htid : d.tenantId <;>
        simp [MongoBase.model, driverModel, herase, hd, htid]
  · intro k hk
    cases hd : assocGet d.collectionName (timerFire d.collectionName st).driverModels with
    | none =>
      cases htid : d.tenantId <;>
        simp [MongoBase.model, driverModel, herase, hd, htid] <;>
        exact hk
    | some h =>
      cases htid : d.tenantId <;>
        simp [MongoBase.model, driverModel, herase, hd, htid] <;>
        exact hk

/-- C8 (witness): the TTL theorem applied to the `t1_users` state. -/
theorem tenant_cache_ttl_witness :
    ((MongoBase.model t1Descriptor t1GState).1.tenantDBModel.map Prod.fst).Nodup
    ∧ ((timerFire t1Descriptor.collectionName t1GState).tenantDBModel.map Prod.fst).Nodup
    ∧ assocGet t1Descriptor.collectionName
        (timerFire t1Descriptor.collectionName t1GState).tenantDBModel = none
    ∧ Effect.compileSchema (timerFire t1Descriptor.collectionName t1GState).nextCompile
        ∈ (MongoBase.model t1Descriptor
            (timerFire t1Descriptor.collectionName t1GState)).2.2
    ∧ ∀ k ∈ t1Descriptor.indexKeys,
        Effect.applyIndex k ∈ (MongoBase.model t1Descriptor
            (timerFire t1Descriptor.collectionName t1GState)).2.2 :=
  tenant_cache_ttl t1Descriptor t1GState (by decide)

/-- C4: for every query, collection state and caller options bag — the
`upsert := some false` bag included — `upsertOne` and `upsertMany` hand the
driver an options bag whose `upsert` flag is `true`, and when no document
matches the query the update runs as an upsert-insert with
`upsertedCount = 1`. -/
theorem upsert_forces_upsert_flag (c : Collection) (q : Rec → Bool) (o : Option QueryOpts) :
    (spreadUpsertTrue o).upsert = some true
    ∧ MongoBase.upsertOne c q o = driverUpdateOne c q (some (spreadUpsertTrue o))
    ∧ MongoBase.upsertMany c q o = driverUpdateMany c q (some (spreadUpsertTrue o))
    ∧ ((c.docs.filter q).length = 0 →
        (MongoBase.upsertOne c q o).upsertedCount = 1
        ∧ (MongoBase.upsertMany c q o).upsertedCount = 1) := by
  have hu : effectiveUpsert (some (spreadUpsertTrue o)) = true := by
    cases o <;> rfl
  refine ⟨by cases o <;> rfl, rfl, rfl, fun h => ?_⟩
  constructor <;>
    simp [MongoBase.upsertOne, MongoBase.upsertMany, MongoBase.updateOne,
      MongoBase.updateMany, driverUpdateOne, driverUpdateMany, h, hu]

/-- C4 (witness): an empty collection with the caller explicitly asking
for `upsert: false` still yields `upsertedCount = 1` on both variants. -/
theorem upsert_forces_upsert_flag_witness :
    (({ docs := [], estimatedCount := 0 } : Collection).docs.filter fun _ => true).length = 0
    ∧ (MongoBase.upsertOne { docs := [], estimatedCount := 0 } (fun _ => true)
        (some { upsert := some false, rest := 7 })).upsertedCount = 1
    ∧ (MongoBase.upsertMany { docs := [], estimatedCount := 0 } (fun _ => true)
        (some { upsert := some false, rest := 7 })).upsertedCount = 1 :=
  ⟨rfl,
    ((upsert_forces_upsert_flag { docs := [], estimatedCount := 0 } (fun _ => true)
      (some { upsert := some false, rest := 7 })).2.2.2 rfl).1,
    ((upsert_forces_upsert_flag { docs := [], estimatedCount := 0 } (fun _ => true)
      (some { upsert := some false, rest := 7 })).2.2.2 rfl).2⟩

/-- C5: `count` with a query is the exact filtered count of the stored
documents; `count` without a query is the driver's estimated total; the
two forms return different values on a concrete dataset whose estimate
disagrees with the filtered count. -/
theorem count_query_vs_estimate (c : Collection) (q : Rec → Bool) :
    MongoBase.count c (some q) = (c.docs.filter q).length
    ∧ MongoBase.count c none = c.estimatedCount
    ∧ MongoBase.count { docs := [], estimatedCount := 5 } (some fun _ => true)
        ≠ MongoBase.count { docs := [], estimatedCount := 5 } none :=
  ⟨rfl, rfl, by decide⟩

/-- C6 (counterexample): a whitespace-only address is blank (it trims to
the empty string) yet `mongoconnect` does attempt a connection with it —
and on failure even schedules a retry — refuting "makes no connection
attempt and schedules no retry" for blank addresses. -/
theorem connect_blank_address_attempts_cex :
    jsTrim " " = ""
    ∧ ConnEffect.connectAttempt " " ∈ mongoconnectOnce (some " ") false
    ∧ ConnEffect.scheduleRetry RECONNET_TIME ∈ mongoconnectOnce (some " ") false :=
  ⟨by decide, by decide, by decide⟩

/-- C6 (amended): when the configured address is missing or empty (the
JavaScript-falsy cases), `mongoconnect` only reports the configuration
error: no connection attempt is made and no retry timer is set. -/
theorem connect_falsy_address_aborts (env : Option String) (ok : Bool)
    (h : jsFalsyStr env = true) :
    mongoconnectOnce env ok = [ConnEffect.logConfigError] := by
  simp [mongoconnectOnce, h]

/-- C6 (witness): the amended theorem at a missing address. -/
theorem connect_falsy_address_aborts_witness :
    mongoconnectOnce none true = [ConnEffect.logConfigError] :=
  connect_falsy_address_aborts none true rfl

/-- C7: with a usable address and every attempt failing, attempt `n` of
the retry loop fires at exactly `n * 5000` ms for every `n` — the delay
never grows and no attempt count is final — and each failing attempt logs
the error, schedules the next attempt 5000 ms later, and surfaces nothing
as a thrown failure. -/
theorem retry_forever_fixed_delay (env : Option String) (outcomes : Nat → Bool) (n : Nat)
    (henv : jsFalsyStr env = false)
    (hfail : ∀ k, outcomes k = false) :
    attemptTime env outcomes n = some (n * RECONNET_TIME)
    ∧ attemptTime env outcomes (n + 1) = some (n * RECONNET_TIME + RECONNET_TIME)
    ∧ ConnEffect.logConnError ∈ mongoconnectOnce env (outcomes n)
    ∧ ConnEffect.scheduleRetry RECONNET_TIME ∈ mongoconnectOnce env (outcomes n)
    ∧ ConnEffect.throwErr ∉ mongoconnectOnce env (outcomes n) := by
  have hA : ∀ m, attemptTime env outcomes m = some (m * RECONNET_TIME) := by
    intro m
    induction m with
    | zero => simp [attemptTime, henv]
    | succ m ih =>
      simp [attemptTime, ih, hfail m]
      ring
  refine ⟨hA n, ?_, ?_, ?_, ?_⟩
  · rw [hA (n + 1)]
    ring_nf
  · simp [mongoconnectOnce, henv, hfail n]
  · simp [mongoconnectOnce, henv, hfail n]
  · simp [mongoconnectOnce, henv, hfail n]

/-- C7 (witness): the retry theorem at a concrete address, all attempts
failing, for attempt 3. -/
theorem retry_forever_fixed_delay_witness :
    attemptTime (some "mongodb://db") (fun _ => false) 3 = some (3 * RECONNET_TIME)
    ∧ attemptTime (some "mongodb://db") (fun _ => false) (3 + 1)
        = some (3 * RECONNET_TIME + RECONNET_TIME)
    ∧ ConnEffect.logConnError ∈ mongoconnectOnce (some "mongodb://db") false
    ∧ ConnEffect.scheduleRetry RECONNET_TIME ∈ mongoconnectOnce (some "mongodb://db") false
    ∧ ConnEffect.throwErr ∉ mongoconnectOnce (some "mongodb://db") false :=
  retry_forever_fixed_delay (some "mongodb://db") (fun _ => false) 3 rfl (fun _ => rfl)

/-- C9: `paging` returns exactly the matching records sorted by the sort
mapping, then with `skip` records dropped — `skip` read as 0 when it is a
falsy number — then capped at `limit`: the pipeline is sort, then skip,
then limit. -/
theorem paging_sort_skip_limit (c : Collection) (q : Rec → Bool) (limit : Nat)
    (skip : JsNum) (sort : Option SortSpec) :
    MongoBase.paging c q limit skip sort
      = ((applySort sort (c.docs.filter q)).drop (jsOrZero skip)).take limit
    ∧ (jsFalsyNum skip = true →
        MongoBase.paging c q limit skip sort
          = (applySort sort (c.docs.filter q)).take limit) := by
  constructor
  · rfl
  · intro h
    have hz : jsOrZero skip = 0 := by
      cases skip with
      | none => rfl
      | some n =>
        simp [jsFalsyNum] at h
        simp [jsOrZero, h]
    show (((((c.find q).sort sort).skip (jsOrZero skip)).limit limit)).exec = _
    rw [hz]
    simp [Collection.find, Cursor.sort, Cursor.skip, Cursor.limit, Cursor.exec, applySort]

/-- C9 (witness): the paging theorem at a two-record collection with a
falsy (`NaN`) skip. -/
theorem paging_sort_skip_limit_witness :
    jsFalsyNum none = true
    ∧ MongoBase.paging { docs := [{ oid := .undef, fields := [("a", 1)] },
          { oid := .undef, fields := [("a", 2)] }], estimatedCount := 2 }
        (fun _ => true) 1 none (some [("a", "desc")])
      = (applySort (some [("a", "desc")])
          (({ docs := [{ oid := .undef, fields := [("a", 1)] },
              { oid := .undef, fields := [("a", 2)] }], estimatedCount := 2 }
            : Collection).docs.filter fun _ => true)).take 1 :=
  ⟨rfl,
    (paging_sort_skip_limit { docs := [{ oid := .undef, fields := [("a", 1)] },
        { oid := .undef, fields := [("a", 2)] }], estimatedCount := 2 }
      (fun _ => true) 1 none (some [("a", "desc")])).2 rfl⟩

end WsDb
